import Mathlib

/-!
Shallow embedding of `couchdb/multipart.py` (a Python 2 module): the streaming
MIME multipart reader `read_multipart` and the writer `MultipartWriter`.

Python 2 byte strings are modelled as Lean `String`s; all string operations the
embedded code uses are re-implemented structurally over the underlying `List
Char` (one `Char` per byte for the ASCII data the module handles), so that every
definition evaluates by kernel reduction.  Dictionaries are modelled as
association lists in insertion order with overwrite-on-existing-key semantics,
matching Python `dict` (`dinsert` / `hlookup`).  The reader, a pair of mutually
recursive generators sharing one file cursor, is modelled as the state machine
`rmGo` over the list of input lines; nested payloads are drained eagerly, which
matches the documented contract that a nested sequence MUST be fully consumed
before the outer scan resumes.  Yielded triples are snapshotted by value (the
Python code additionally clears the yielded header dict in place after the
consumer resumes, an aliasing effect outside a value-level embedding).
-/

namespace Multipart

/-- Python `str` whitespace set used by `str.strip()`. -/
def pyIsSpace (c : Char) : Bool :=
  c = ' ' || c = '\t' || c = '\n' || c = '\r' || c = '\x0b' || c = '\x0c'

/-- Strip `pyIsSpace` characters from both ends, as Python `str.strip()`. -/
def trimChars (l : List Char) : List Char :=
  ((l.dropWhile pyIsSpace).reverse.dropWhile pyIsSpace).reverse

/-- Model of Python `s.strip()`. -/
def strim (s : String) : String := String.mk (trimChars s.data)

/-- Model of Python `s.lower()` (ASCII lowering, as for the header names used here). -/
def slower (s : String) : String := String.mk (s.data.map Char.toLower)

/-- Helper for `splitFirst`: scan for the first occurrence of `sep`. -/
def splitFirstAux (sep : Char) : List Char → List Char → Option (String × String)
  | [], _ => none
  | c :: cs, acc =>
    if c = sep then some (String.mk acc.reverse, String.mk cs)
    else splitFirstAux sep cs (c :: acc)

/-- Model of Python `s.split(sep, 1)` followed by unpacking into two names:
`none` when `sep` does not occur (Python raises `ValueError` there). -/
def splitFirst (sep : Char) (s : String) : Option (String × String) :=
  splitFirstAux sep s.data []

/-- Helper for `splitOnChar`. -/
def splitOnCharAux (sep : Char) : List Char → List Char → List String
  | [], acc => [String.mk acc.reverse]
  | c :: cs, acc =>
    if c = sep then String.mk acc.reverse :: splitOnCharAux sep cs []
    else splitOnCharAux sep cs (c :: acc)

/-- Model of Python `s.split(sep)` for a one-character separator. -/
def splitOnChar (sep : Char) (s : String) : List String :=
  splitOnCharAux sep s.data []

/-- Model of Python `''.join(buf)`. -/
def sjoin : List String → String
  | [] => ""
  | s :: rest => s ++ sjoin rest

/-- Helper for `sreplace`; the fuel argument makes the recursion structural and
is always at least the length of the scanned list, so it never runs out. -/
def replaceAux (pat rep : List Char) : Nat → List Char → List Char
  | 0, l => l
  | _ + 1, [] => []
  | n + 1, c :: cs =>
    if pat.isPrefixOf (c :: cs) then rep ++ replaceAux pat rep n (List.drop pat.length (c :: cs))
    else c :: replaceAux pat rep n cs

/-- Model of Python `s.replace(pat, rep)` for a non-empty pattern (the embedded
code only replaces the non-empty patterns `\\` and `\"`). -/
def sreplace (s pat rep : String) : String :=
  if pat.data.isEmpty then s
  else String.mk (replaceAux pat.data rep.data s.data.length s.data)

/-- Decimal digits of `n`; fuel-structural, fuel `n + 1` always suffices. -/
def natDigitsAux : Nat → Nat → List Char
  | 0, _ => []
  | fuel + 1, n =>
    if n < 10 then [Char.ofNat (48 + n)]
    else natDigitsAux fuel (n / 10) ++ [Char.ofNat (48 + n % 10)]

/-- Model of Python `str(n)` for a natural number. -/
def natToStr (n : Nat) : String := String.mk (natDigitsAux (n + 1) n)

/-- Model of Python 2 file iteration: split a stream into lines after every
newline character, keeping the terminators; a trailing chunk without a
terminator is still produced. -/
def splitLinesAux : List Char → List Char → List String
  | [], acc => if acc.isEmpty then [] else [String.mk acc.reverse]
  | c :: cs, acc =>
    if c = '\n' then String.mk (c :: acc).reverse :: splitLinesAux cs []
    else splitLinesAux cs (c :: acc)

/-- Split a byte stream into the lines Python 2 file iteration would yield. -/
def splitLines (s : String) : List String := splitLinesAux s.data []

/-- Python `dict` assignment `d[k] = v`: overwrite the binding in place if the
key exists, otherwise append the new binding. -/
def dinsert : List (String × String) → String → String → List (String × String)
  | [], k, v => [(k, v)]
  | (k', v') :: rest, k, v =>
    if k' = k then (k, v) :: rest else (k', v') :: dinsert rest k v

/-- Python `dict.get`: the value bound to `key`, if any. -/
def hlookup : List (String × String) → String → Option String
  | [], _ => none
  | (k, v) :: rest, key => if k = key then some v else hlookup rest key

/-- Model of Python `s.startswith(pre)`. -/
def strStarts (s pre : String) : Bool := pre.data.isPrefixOf s.data

/-- The line terminator constant `EOL` of the module. -/
def EOL : String := "\r\n"

/-- Strip one pair of surrounding double quotes and undo the two backslash
escapes, as `cgi.parse_header` does to a parameter value. -/
def stripQuotes (v : String) : String :=
  if 2 ≤ v.data.length ∧ v.data.head? = some '"' ∧ v.data.getLast? = some '"' then
    sreplace (sreplace (String.mk v.data.tail.dropLast) "\\\\" "\\") "\\\"" "\""
  else v

/-- Model of the Python stdlib `cgi.parse_header` (the module's only external
dependency): the media type before the first `;`, and the `name=value`
parameters after it, names lowered and stripped, values unquoted.  Simplified
in one respect: `_parseparam`'s re-scan for semicolons inside quoted values is
omitted, since no value handled here contains a quoted semicolon. -/
def parse_header (line : String) : String × List (String × String) :=
  match splitOnChar ';' line with
  | [] => ("", [])
  | key :: rest =>
    (strim key,
      rest.foldl (fun pdict p =>
        match splitFirst '=' (strim p) with
        | none => pdict
        | some (n, v) => dinsert pdict (slower (strim n)) (stripQuotes (strim v))) [])

/-- The failures `read_multipart` can raise.  `malformedHeader` is the
`ValueError` from unpacking `line.split(':', 1)`; `noContentType` the
`TypeError` from `parse_header(None)`; `missingBoundary` the `KeyError` from
`params['boundary']`.  `fuelExhausted` is an artifact of the bounded embedding
of the recursion and is never produced when enough fuel is supplied. -/
inductive PError where
  | malformedHeader
  | noContentType
  | missingBoundary
  | fuelExhausted
deriving Repr, DecidableEq

/-- A yielded `(headers, is_multipart, payload)` triple: `leaf` for
`is_multipart = False` with the string payload, `nested` for
`is_multipart = True` with the (fully drained) nested parts. -/
inductive Part where
  | leaf (headers : List (String × String)) (payload : String)
  | nested (headers : List (String × String)) (parts : List Part)

/-- The `is_multipart` component of a yielded triple. -/
def Part.isMultipart : Part → Bool
  | .leaf _ _ => false
  | .nested _ _ => true

/-- The headers component of a yielded triple. -/
def Part.headers : Part → List (String × String)
  | .leaf h _ => h
  | .nested h _ => h

/-- Result of running the reader: the parts yielded from the current point on,
the error that terminated the generator (if any), and the unconsumed lines. -/
structure RmOut where
  parts : List Part
  err : Option PError
  rest : List String

/-- `_current_part`'s payload: join the buffer and, if the two-character `EOL`
is a suffix, drop one character (`payload[:-1]` in the source — note: one
character, not the two of the terminator just tested for). -/
def currentPayload (buf : List String) : String :=
  let payload := sjoin buf
  if EOL.data.isSuffixOf payload.data then String.mk payload.data.dropLast else payload

/-- `next_boundary = boundary and '--' + boundary + EOL or None`. -/
def nextBoundaryOf : Option String → Option String
  | none => none
  | some b => if b = "" then none else some ("--" ++ b ++ EOL)

/-- `last_boundary = boundary and '--' + boundary + '--' + EOL or None`. -/
def lastBoundaryOf : Option String → Option String
  | none => none
  | some b => if b = "" then none else some ("--" ++ b ++ "--" ++ EOL)

/-- The loop of `read_multipart`, one constructor case per iteration.  The
arguments after the fuel are the generator's state: `boundary`, the `outer` and
`in_headers` flags, the `headers` dict, the `buf` list, and the lines still to
be read.  Nested generators are run to completion where Python yields them
lazily (the consumer must fully drain them before the outer loop resumes, so
the eager run consumes exactly the lines the Python generator would). -/
def rmGo : Nat → Option String → Bool → Bool → List (String × String) → List String →
    List String → RmOut
  | 0, _, _, _, _, _, lines => ⟨[], some PError.fuelExhausted, lines⟩
  | _ + 1, _, outer, _, headers, buf, [] =>
    if outer = false ∧ headers ≠ [] then ⟨[Part.leaf headers (currentPayload buf)], none, []⟩
    else ⟨[], none, []⟩
  | n + 1, boundary, outer, in_headers, headers, buf, line :: rest =>
    if in_headers then
      if line ≠ EOL then
        match splitFirst ':' line with
        | none => ⟨[], some PError.malformedHeader, rest⟩
        | some (name, value) =>
          rmGo n boundary outer true (dinsert headers (strim (slower name)) (strim value)) buf rest
      else
        match hlookup headers "content-type" with
        | none => ⟨[], some PError.noContentType, rest⟩
        | some ctVal =>
          let mp := parse_header ctVal
          if strStarts mp.1 "multipart/" then
            match hlookup mp.2 "boundary" with
            | none => ⟨[], some PError.missingBoundary, rest⟩
            | some subB =>
              let inner := rmGo n (some subB) false false [] [] rest
              match boundary with
              | some _ =>
                match inner.err with
                | some e => ⟨[Part.nested headers inner.parts], some e, inner.rest⟩
                | none =>
                  let out := rmGo n boundary outer false [] [] inner.rest
                  ⟨Part.nested headers inner.parts :: out.parts, out.err, out.rest⟩
              | none => ⟨inner.parts, inner.err, inner.rest⟩
          else
            rmGo n boundary outer false headers buf rest
    else if some line = nextBoundaryOf boundary then
      if headers ≠ [] then
        if outer = false then
          let out := rmGo n boundary outer true [] [] rest
          ⟨Part.leaf headers (currentPayload buf) :: out.parts, out.err, out.rest⟩
        else rmGo n boundary false true [] [] rest
      else rmGo n boundary outer true headers buf rest
    else if some line = lastBoundaryOf boundary then
      if outer = false ∧ headers ≠ [] then ⟨[Part.leaf headers (currentPayload buf)], none, rest⟩
      else ⟨[], none, rest⟩
    else
      rmGo n boundary outer in_headers headers (buf ++ [line]) rest

/-- `read_multipart(fileobj, boundary)`: `outer = in_headers = boundary is None`,
empty headers dict and body buffer. -/
def read_multipart (fuel : Nat) (lines : List String) (boundary : Option String) : RmOut :=
  rmGo fuel boundary boundary.isNone boundary.isNone [] [] lines

/-- Lexicographic (bytewise, as Python 2 string comparison) order on strings,
as a structurally computable Boolean. -/
def listLe : List Char → List Char → Bool
  | [], _ => true
  | _ :: _, [] => false
  | a :: as, b :: bs => if a = b then listLe as bs else decide (a < b)

/-- `a ≤ b` in the lexicographic string order used by Python `sorted`. -/
def strLe (a b : String) : Bool := listLe a.data b.data

/-- `strLe` as a proposition, the sort relation of the header serializer. -/
def strLeP (a b : String) : Prop := strLe a b = true

instance : DecidableRel strLeP := fun a b => inferInstanceAs (Decidable (strLe a b = true))

/-- Strict lexicographic order on strings (`≤` together with `≠`). -/
def strLtP (a b : String) : Prop := strLeP a b ∧ a ≠ b

/-- `MultipartWriter._write_headers`: each header as `name: value` + `EOL`, the
names in `sorted` order, followed by the blank line.  (When the dict is empty
the loop body is skipped and only the blank line is written, which coincides
with serializing the empty list.) -/
def serializeHeaders (hs : List (String × String)) : String :=
  sjoin ((List.insertionSort strLeP (hs.map Prod.fst)).map
    (fun n => n ++ ": " ++ (hlookup hs n).getD "" ++ EOL)) ++ EOL

/-- The `Content-Type` value synthesized by `MultipartWriter.__init__`. -/
def ctValue (subtype boundary : String) : String :=
  "multipart/" ++ subtype ++ "; boundary=\"" ++ boundary ++ "\""

/-- Effect of `MultipartWriter.__init__` on the caller-supplied headers dict:
the synthesized `Content-Type` is assigned into it in place. -/
def initHeadersEffect (hs : List (String × String)) (subtype boundary : String) :
    List (String × String) :=
  dinsert hs "Content-Type" (ctValue subtype boundary)

/-- Bytes written to the sink by `MultipartWriter.__init__`: the envelope's own
header block. -/
def initOutput (hs : List (String × String)) (subtype boundary : String) : String :=
  serializeHeaders (initHeadersEffect hs subtype boundary)

/-- Effect of `MultipartWriter.add` on the caller-supplied headers dict:
`Content-Type` and then `Content-Length` (`str(len(content))`) are assigned
into it in place. -/
def addHeadersEffect (hs : List (String × String)) (mimetype content : String) :
    List (String × String) :=
  dinsert (dinsert hs "Content-Type" mimetype) "Content-Length" (natToStr content.data.length)

/-- Bytes written by `MultipartWriter.add`: boundary opening line, header
block, and — only when `content` is non-empty (`if content:`) — the content
followed by one `EOL`. -/
def addOutput (boundary mimetype content : String) (hs : List (String × String)) : String :=
  "--" ++ boundary ++ EOL ++ serializeHeaders (addHeadersEffect hs mimetype content)
    ++ (if content ≠ "" then content ++ EOL else "")

/-- Bytes written by `MultipartWriter.open`: the outer boundary opening line,
then the nested writer's constructor output. -/
def openOutput (outerBoundary : String) (hs : List (String × String))
    (subtype innerBoundary : String) : String :=
  "--" ++ outerBoundary ++ EOL ++ initOutput hs subtype innerBoundary

/-- Bytes written by `MultipartWriter.close`: the terminal boundary line. -/
def closeOutput (boundary : String) : String := "--" ++ boundary ++ "--" ++ EOL

/-- What the spec's words for `add` describe: boundary opening line, the same
sorted header block, then the content verbatim and one trailing line
terminator, unconditionally.  Written for comparison with `addOutput`. -/
def addOutputSpec (boundary mimetype content : String) (hs : List (String × String)) : String :=
  "--" ++ boundary ++ EOL ++ serializeHeaders (addHeadersEffect hs mimetype content)
    ++ content ++ EOL

/-- A line shaped like some terminal boundary line: it begins with `--` and
ends with `--` followed by the line terminator.  Every line the reader can
match as `last_boundary` (at any nesting level) has this shape. -/
def isLastBoundaryShaped (l : String) : Bool :=
  "--".data.isPrefixOf l.data && ("--" ++ EOL).data.isSuffixOf l.data

/-- The doctest scenario of `write_multipart`: one flat leaf part
`('text/plain', 'Just testing')` inside boundary `==123456789==`. -/
def flatScenario : String :=
  initOutput [] "mixed" "==123456789=="
    ++ addOutput "==123456789==" "text/plain" "Just testing" []
    ++ closeOutput "==123456789=="

/-- The nested doctest scenario of `write_multipart`: an outer envelope with
boundary `==123456789==` holding one nested envelope with boundary
`==abcdefghi==` that holds the single leaf `('text/plain', 'Just testing')`. -/
def nestedScenario : String :=
  initOutput [] "mixed" "==123456789=="
    ++ openOutput "==123456789==" [] "mixed" "==abcdefghi=="
    ++ addOutput "==abcdefghi==" "text/plain" "Just testing" []
    ++ closeOutput "==abcdefghi=="
    ++ closeOutput "==123456789=="

/-- Inner-mode input whose first part's wire body is `Just testing` + `EOL`
before the boundary. -/
def trailingScenario : List String :=
  ["--b" ++ EOL, "Content-Type: text/plain" ++ EOL, EOL, "Just testing" ++ EOL,
   "--b--" ++ EOL]

/-- Inner-mode input with a one-line preamble `p` before the first boundary. -/
def preambleScenario (p : String) : List String :=
  [p, "--b" ++ EOL, "Content-Type: text/plain" ++ EOL, EOL, "X" ++ EOL, "--b--" ++ EOL]

/-- Truncated inner-mode input: headers and a body line, but end-of-input
arrives before any terminal boundary line. -/
def truncatedScenario : List String :=
  ["--b" ++ EOL, "Content-Type: text/plain" ++ EOL, EOL, "Hello" ++ EOL]

theorem sapp_assoc (a b c : String) : (a ++ b) ++ c = a ++ (b ++ c) :=
  congrArg String.mk (List.append_assoc a.data b.data c.data)

theorem sapp_empty (s : String) : s ++ "" = s :=
  congrArg String.mk (List.append_nil s.data)

theorem hlookup_dinsert_self (hs : List (String × String)) (k v : String) :
    hlookup (dinsert hs k v) k = some v := by
  induction hs with
  | nil => simp [dinsert, hlookup]
  | cons p rest ih =>
    obtain ⟨k', v'⟩ := p
    by_cases h : k' = k
    · simp [dinsert, h, hlookup]
    · simp [dinsert, h, hlookup, ih]

theorem hlookup_dinsert_ne (hs : List (String × String)) (k v k' : String) (h : k ≠ k') :
    hlookup (dinsert hs k v) k' = hlookup hs k' := by
  induction hs with
  | nil => simp [dinsert, hlookup, h]
  | cons p rest ih =>
    obtain ⟨k₀, v₀⟩ := p
    by_cases h₀ : k₀ = k
    · simp [dinsert, h₀, hlookup, h]
    · simp [dinsert, h₀, hlookup, ih]

theorem hlookup_perm {l₁ l₂ : List (String × String)} (hp : l₁.Perm l₂)
    (hnd : (l₁.map Prod.fst).Nodup) : ∀ k, hlookup l₁ k = hlookup l₂ k := by
  induction hp with
  | nil => intro k; rfl
  | cons x _ ih =>
    intro k
    obtain ⟨kx, vx⟩ := x
    simp only [List.map_cons, List.nodup_cons] at hnd
    by_cases h : kx = k
    · simp [hlookup, h]
    · simp [hlookup, h, ih hnd.2 k]
  | swap x y l =>
    intro k
    obtain ⟨kx, vx⟩ := x
    obtain ⟨ky, vy⟩ := y
    simp only [List.map_cons, List.nodup_cons, List.mem_cons] at hnd
    have hxy : ky ≠ kx := fun h => hnd.1 (Or.inl h)
    by_cases h₁ : ky = k
    · have hkx : ¬kx = k := fun h => hxy (h₁.trans h.symm)
      simp [hlookup, h₁, hkx]
    · by_cases h₂ : kx = k <;> simp [hlookup, h₁, h₂]
  | trans p₁ _ ih₁ ih₂ =>
    intro k
    have hnd₂ := (p₁.map Prod.fst).nodup_iff.mp hnd
    exact (ih₁ hnd k).trans (ih₂ hnd₂ k)

theorem listLe_total : ∀ a b : List Char, listLe a b = true ∨ listLe b a = true
  | [], _ => Or.inl rfl
  | _ :: _, [] => Or.inr rfl
  | a :: as, b :: bs => by
    by_cases h : a = b
    · simpa [listLe, h] using listLe_total as bs
    · rcases lt_or_gt_of_ne h with hlt | hgt
      · exact Or.inl (by simp [listLe, h, hlt])
      · exact Or.inr (by simp [listLe, Ne.symm h, hgt])

theorem listLe_trans : ∀ {a b c : List Char},
    listLe a b = true → listLe b c = true → listLe a c = true
  | [], _, _, _, _ => rfl
  | _ :: _, [], _, h, _ => by simp [listLe] at h
  | _ :: _, _ :: _, [], _, h => by simp [listLe] at h
  | a :: as, b :: bs, c :: cs, h₁, h₂ => by
    by_cases hab : a = b
    · subst hab
      by_cases hac : a = c
      · subst hac
        simp only [listLe, if_pos rfl] at h₁ h₂ ⊢
        exact listLe_trans h₁ h₂
      · simpa [listLe, hac] using by simpa [listLe, hac] using h₂
    · have hab' : a < b := by simpa [listLe, hab] using h₁
      by_cases hbc : b = c
      · subst hbc
        simp [listLe, hab, hab']
      · have hbc' : b < c := by simpa [listLe, hbc] using h₂
        have hac' : a < c := lt_trans hab' hbc'
        simp [listLe, ne_of_lt hac', hac']

theorem listLe_antisymm : ∀ {a b : List Char},
    listLe a b = true → listLe b a = true → a = b
  | [], [], _, _ => rfl
  | [], _ :: _, _, h => by simp [listLe] at h
  | _ :: _, [], h, _ => by simp [listLe] at h
  | a :: as, b :: bs, h₁, h₂ => by
    by_cases hab : a = b
    · subst hab
      simp only [listLe, if_pos rfl] at h₁ h₂
      exact congrArg _ (listLe_antisymm h₁ h₂)
    · have h₁' : a < b := by simpa [listLe, hab] using h₁
      have h₂' : b < a := by simpa [listLe, Ne.symm hab] using h₂
      exact absurd h₁' (lt_asymm h₂')

theorem strLeP_total : ∀ a b : String, strLeP a b ∨ strLeP b a :=
  fun a b => listLe_total a.data b.data

theorem strLeP_trans : ∀ {a b c : String}, strLeP a b → strLeP b c → strLeP a c :=
  fun h₁ h₂ => listLe_trans h₁ h₂

theorem strLeP_antisymm : ∀ {a b : String}, strLeP a b → strLeP b a → a = b :=
  fun h₁ h₂ => congrArg String.mk (listLe_antisymm h₁ h₂)

theorem lastBoundary_shaped {b : Option String} {l : String} (h : some l = lastBoundaryOf b) :
    isLastBoundaryShaped l = true := by
  cases b with
  | none => exact absurd h (by simp [lastBoundaryOf])
  | some s =>
    simp only [lastBoundaryOf] at h
    by_cases hs : s = ""
    · simp [hs] at h
    · rw [if_neg hs, Option.some.injEq] at h
      subst h
      simp only [isLastBoundaryShaped, Bool.and_eq_true]
      constructor
      · rw [List.isPrefixOf_iff_prefix]
        exact ⟨(s ++ "--" ++ EOL).data, by simp [sapp_assoc]⟩
      · rw [List.isSuffixOf_iff_suffix]
        exact ⟨("--" ++ s).data, by simp [sapp_assoc]⟩

theorem rmGo_rest_subset : ∀ (fuel : Nat) (b : Option String) (outer inH : Bool)
    (hdrs : List (String × String)) (buf lines : List String),
    (rmGo fuel b outer inH hdrs buf lines).rest ⊆ lines := by
  intro fuel
  induction fuel with
  | zero => intro b outer inH hdrs buf lines; simp [rmGo]
  | succ n ih =>
    intro b outer inH hdrs buf lines
    cases lines with
    | nil =>
      simp only [rmGo]
      split <;> simp
    | cons line rest =>
      have hsub : rest ⊆ line :: rest := List.subset_cons_self _ _
      simp only [rmGo]
      repeat' split
      all_goals first
        | exact hsub
        | exact (ih _ _ _ _ _ _).trans hsub
        | exact ((ih _ _ _ _ _ _).trans ((ih _ _ _ _ _ _).trans hsub))

theorem rmGo_no_terminal : ∀ (fuel : Nat) (b : Option String) (outer inH : Bool)
    (hdrs : List (String × String)) (buf lines : List String),
    (∀ l ∈ lines, isLastBoundaryShaped l = false) →
    (rmGo fuel b outer inH hdrs buf lines).err = none →
    (rmGo fuel b outer inH hdrs buf lines).rest = [] := by
  intro fuel
  induction fuel with
  | zero => intro b outer inH hdrs buf lines _ herr; simp [rmGo] at herr
  | succ n ih =>
    intro b outer inH hdrs buf lines hshape
    cases lines with
    | nil =>
      simp only [rmGo]
      split <;> intro _ <;> rfl
    | cons line rest =>
      have hshape' : ∀ l ∈ rest, isLastBoundaryShaped l = false :=
        fun l hl => hshape l (List.mem_cons_of_mem _ hl)
      have hline := hshape line (List.mem_cons_self _ _)
      simp only [rmGo]
      repeat' split
      all_goals intro herr
      all_goals first
        | exact Option.noConfusion herr
        | exact ih _ _ _ _ _ _ hshape' herr
        | exact ih _ _ _ _ _ _ (fun l hl => hshape' l (rmGo_rest_subset _ _ _ _ _ _ _ hl)) herr
        | (have hsh := lastBoundary_shaped (by assumption); rw [hline] at hsh
           exact Bool.noConfusion hsh)

theorem currentPayload_preamble (p : String) : currentPayload [p, "X" ++ EOL] = p ++ "X\r" := by
  have hjoin : sjoin [p, "X" ++ EOL] = p ++ "X\r\n" := by
    simp [sjoin, sapp_empty, EOL]
  simp only [currentPayload, hjoin]
  have hsuf : EOL.data.isSuffixOf (p ++ "X\r\n").data = true := by
    rw [List.isSuffixOf_iff_suffix]
    exact ⟨p.data ++ ['X'], by rw [List.append_assoc]; rfl⟩
  rw [if_pos hsuf]
  have hdata : (p ++ "X\r\n").data = p.data ++ 'X' :: ['\r', '\n'] := rfl
  rw [hdata, List.dropLast_append_cons]
  rfl

theorem preamble_step1 (p : String) (h1 : p ≠ "--b" ++ EOL) (h2 : p ≠ "--b--" ++ EOL) :
    read_multipart 20 (preambleScenario p) (some "b")
      = rmGo 19 (some "b") false false [] [p]
          ["--b\r\n", "Content-Type: text/plain\r\n", "\r\n", "X\r\n", "--b--\r\n"] := by
  simp only [read_multipart, preambleScenario]
  conv_lhs => rw [rmGo]
  simp only [EOL] at h1 h2
  simp at h1 h2
  simp [EOL, nextBoundaryOf, lastBoundaryOf, h1, h2]

theorem preamble_step2 (p : String) :
    rmGo 19 (some "b") false false [] [p]
        ["--b\r\n", "Content-Type: text/plain\r\n", "\r\n", "X\r\n", "--b--\r\n"]
      = ⟨[Part.leaf [("content-type", "text/plain")] (currentPayload [p, "X" ++ EOL])],
          none, []⟩ := rfl

/-- C1: the flat round-trip does NOT return the written payload byte-for-byte:
writing the single leaf `('text/plain', 'Just testing')` and reading the stream
back in outer mode yields one leaf triple whose headers match but whose payload
is `"Just testing\r"` — `_current_part` tests for the two-character `EOL`
suffix yet strips only one character (`payload[:-1]`), leaving a residual
carriage return, so the payload is not byte-equal to the content written. -/
theorem c1_flat_roundtrip_residual_cr :
    read_multipart 40 (splitLines flatScenario) none =
      ⟨[Part.leaf [("content-length", "12"), ("content-type", "text/plain")] "Just testing\r"],
        none, []⟩ ∧
    ("Just testing\r" : String) ≠ "Just testing" :=
  ⟨rfl, by decide⟩

/-- C2: finalizing a leaf part does NOT remove the complete trailing CRLF: for
the wire body `"Just testing" + CRLF` before the boundary, the reader returns
payload `"Just testing\r"`, i.e. only the final `'\n'` is removed
(`payload[:-1]` drops one character after testing for the two-character
terminator), leaving a residual `'\r'`. -/
theorem c2_trailing_strip_residual_cr :
    read_multipart 40 trailingScenario (some "b") =
      ⟨[Part.leaf [("content-type", "text/plain")] "Just testing\r"], none, []⟩ ∧
    ("Just testing\r" : String) ≠ "Just testing" :=
  ⟨rfl, by decide⟩

/-- C3: the nested round-trip yields one outer triple with `isMultipart = true`
whose drained nested sequence holds exactly one leaf, but that leaf's payload
is `"Just testing\r"`, not the written `"Just testing"` — the same one-character
stripping slip as in the flat case. -/
theorem c3_nested_roundtrip_residual_cr :
    read_multipart 40 (splitLines nestedScenario) none =
      ⟨[Part.nested [("content-type", "multipart/mixed; boundary=\"==abcdefghi==\"")]
          [Part.leaf [("content-length", "12"), ("content-type", "text/plain")] "Just testing\r"]],
        none, []⟩ ∧
    ("Just testing\r" : String) ≠ "Just testing" :=
  ⟨rfl, by decide⟩

/-- C4 counterexample: for empty content, `add` does not emit the trailing
line terminator the spec sentence promises unconditionally — the writer output
differs from the spec-described output at `content = ""`. -/
theorem c4_empty_content_counterexample :
    addOutput "b" "text/plain" "" [] ≠ addOutputSpec "b" "text/plain" "" [] := by decide

/-- C4 (amended): for every boundary, mimetype, caller headers and NON-EMPTY
content, `add` emits exactly the boundary opening line, the sorted header block
with synthesized `Content-Type` and `Content-Length`, a blank line, the content
verbatim, and one trailing line terminator; when the content is empty the
content and the trailing terminator are both omitted. -/
theorem c4_add_output_nonempty (b mt c : String) (hs : List (String × String)) (h : c ≠ "") :
    addOutput b mt c hs = addOutputSpec b mt c hs := by
  simp only [addOutput, addOutputSpec, if_pos h]
  simp [sapp_assoc]

theorem c4_add_output_nonempty_witness :
    addOutput "b" "text/plain" "x" [] = addOutputSpec "b" "text/plain" "x" [] :=
  c4_add_output_nonempty "b" "text/plain" "x" [] (by decide)

/-- C5: the serialized header block lists names in strict lexicographic order,
and serializing the same mapping twice — any two association lists with the
same bindings (permutations of one another, keys unique, as for a Python dict)
— produces byte-identical output. -/
theorem c5_header_determinism (hs hs' : List (String × String))
    (hnd : (hs.map Prod.fst).Nodup) (hperm : hs.Perm hs') :
    (List.insertionSort strLeP (hs.map Prod.fst)).Sorted strLtP ∧
      serializeHeaders hs = serializeHeaders hs' := by
  haveI : IsTotal String strLeP := ⟨strLeP_total⟩
  haveI : IsTrans String strLeP := ⟨fun _ _ _ => strLeP_trans⟩
  haveI : IsAntisymm String strLeP := ⟨fun _ _ => strLeP_antisymm⟩
  constructor
  · have hsorted := List.sorted_insertionSort strLeP (hs.map Prod.fst)
    have hnodup : (List.insertionSort strLeP (hs.map Prod.fst)).Nodup :=
      ((List.perm_insertionSort strLeP _).nodup_iff).mpr hnd
    exact hsorted.imp₂ (fun _ _ hle hne => ⟨hle, hne⟩) hnodup
  · have hpermNames : (hs.map Prod.fst).Perm (hs'.map Prod.fst) := hperm.map _
    have hsortEq : List.insertionSort strLeP (hs.map Prod.fst)
        = List.insertionSort strLeP (hs'.map Prod.fst) :=
      List.eq_of_perm_of_sorted
        ((List.perm_insertionSort _ _).trans (hpermNames.trans (List.perm_insertionSort _ _).symm))
        (List.sorted_insertionSort _ _) (List.sorted_insertionSort _ _)
    have hlook := hlookup_perm hperm hnd
    unfold serializeHeaders
    rw [hsortEq]
    congr 1
    apply congrArg
    exact List.map_congr_left fun n _ => by rw [hlook n]

theorem c5_header_determinism_witness :
    (List.insertionSort strLeP ([("B", "2"), ("A", "1")].map Prod.fst)).Sorted strLtP ∧
      serializeHeaders [("B", "2"), ("A", "1")] = serializeHeaders [("A", "1"), ("B", "2")] :=
  c5_header_determinism _ _ (by decide) (by decide)

/-- C6: `add(mimetype, "")` emits `Content-Length: 0` in its header block and
nothing at all after the header-terminating blank line, so there are zero body
lines between that blank line and the next boundary line; the concrete
conjunct shows the blank line directly followed by the terminal boundary. -/
theorem c6_empty_leaf (b mt : String) (hs : List (String × String)) :
    addOutput b mt "" hs = "--" ++ b ++ EOL ++ serializeHeaders (addHeadersEffect hs mt "") ∧
    hlookup (addHeadersEffect hs mt "") "Content-Length" = some "0" ∧
    addOutput "b" "text/plain" "" [] ++ closeOutput "b" =
      "--b" ++ EOL ++ "Content-Length: 0" ++ EOL ++ "Content-Type: text/plain" ++ EOL ++ EOL
        ++ "--b--" ++ EOL := by
  refine ⟨?_, hlookup_dinsert_self _ _ _, rfl⟩
  simp [addOutput, sapp_empty]

theorem c6_empty_leaf_witness :
    addOutput "b" "text/plain" "" []
      = "--" ++ "b" ++ EOL ++ serializeHeaders (addHeadersEffect [] "text/plain" "") :=
  (c6_empty_leaf "b" "text/plain" []).1

/-- C7 counterexample: in inner mode a non-empty preamble is NOT ignored — the
preamble line `"PRE" + EOL` reappears verbatim at the start of the first leaf
part's payload (the body buffer is only reset under `if headers:`, which is
false at the first boundary). -/
theorem c7_preamble_counterexample :
    (read_multipart 20 (preambleScenario ("PRE" ++ EOL)) (some "b")).parts
        = [Part.leaf [("content-type", "text/plain")] "PRE\r\nX\r"] ∧
      ("PRE" ++ EOL).data.isPrefixOf "PRE\r\nX\r".data = true :=
  ⟨rfl, rfl⟩

/-- C7 (amended): in inner mode, content lines before the first opening
boundary line are retained in the body buffer rather than ignored: for every
preamble line `p` that is not a boundary line of the envelope, the first
yielded leaf part's payload begins with `p`. -/
theorem c7_preamble_retained (p : String) (h1 : p ≠ "--b" ++ EOL) (h2 : p ≠ "--b--" ++ EOL) :
    (read_multipart 20 (preambleScenario p) (some "b")).parts
        = [Part.leaf [("content-type", "text/plain")] (p ++ "X\r")] ∧
      (read_multipart 20 (preambleScenario p) (some "b")).err = none := by
  rw [preamble_step1 p h1 h2, preamble_step2 p, currentPayload_preamble p]
  exact ⟨rfl, rfl⟩

theorem c7_preamble_retained_witness :
    (read_multipart 20 (preambleScenario ("ZZZ" ++ EOL)) (some "b")).parts
        = [Part.leaf [("content-type", "text/plain")] (("ZZZ" ++ EOL) ++ "X\r")] ∧
      (read_multipart 20 (preambleScenario ("ZZZ" ++ EOL)) (some "b")).err = none :=
  c7_preamble_retained ("ZZZ" ++ EOL) (by decide) (by decide)

/-- C8 counterexample: an input that ends before any terminal boundary line
can still terminate with an error — a malformed header line in a truncated
input raises `MalformedHeader`, so not every truncated input ends the sequence
without an error. -/
theorem c8_truncated_error_counterexample :
    (read_multipart 20 ["--b" ++ EOL, "garbage" ++ EOL] (some "b")).err
        = some PError.malformedHeader ∧
      (∀ l ∈ ["--b" ++ EOL, "garbage" ++ EOL], some l ≠ lastBoundaryOf (some "b")) :=
  ⟨rfl, by decide⟩

/-- C8 (amended): truncation itself is never reported: whenever the input
contains no terminal-boundary-shaped line and parsing terminates without a
parse failure, the whole input is consumed (the sequence simply ends at
end-of-input), and at end-of-input a pending part whose headers have been
gathered is yielded; a truncated input can, however, still fail for another
reason such as a malformed header line. -/
theorem c8_truncation_tolerated :
    (∀ (fuel : Nat) (lines : List String) (b : Option String),
        (∀ l ∈ lines, isLastBoundaryShaped l = false) →
        (read_multipart fuel lines b).err = none →
        (read_multipart fuel lines b).rest = []) ∧
    (∀ (fuel : Nat) (b : Option String) (hdrs : List (String × String)) (buf : List String),
        hdrs ≠ [] →
        rmGo (fuel + 1) b false false hdrs buf []
          = ⟨[Part.leaf hdrs (currentPayload buf)], none, []⟩) := by
  constructor
  · intro fuel lines b hshape herr
    exact rmGo_no_terminal fuel b _ _ [] [] lines hshape herr
  · intro fuel b hdrs buf h
    simp [rmGo, h]

theorem c8_truncation_tolerated_witness :
    (read_multipart 30 truncatedScenario (some "b")).rest = [] :=
  c8_truncation_tolerated.1 30 truncatedScenario (some "b") (by decide) (by rfl)

/-- C9: a header line without the `:` separator aborts the current envelope
with `MalformedHeader`: from any reader state in header mode, meeting such a
line yields no further part and stops with the failure, whatever follows; the
second conjunct shows the same at the `read_multipart` entry point for an
envelope whose first header line is malformed. -/
theorem c9_malformed_header_aborts :
    (∀ (fuel : Nat) (b : Option String) (outer : Bool) (hdrs : List (String × String))
        (buf : List String) (line : String) (rest : List String),
        line ≠ EOL → splitFirst ':' line = none →
        rmGo (fuel + 1) b outer true hdrs buf (line :: rest)
          = ⟨[], some PError.malformedHeader, rest⟩) ∧
    (∀ (bad : String) (rest : List String),
        bad ≠ EOL → splitFirst ':' bad = none →
        read_multipart 20 (("--b" ++ EOL) :: bad :: rest) (some "b")
          = ⟨[], some PError.malformedHeader, rest⟩) := by
  have hstep : ∀ (fuel : Nat) (b : Option String) (outer : Bool) (hdrs : List (String × String))
      (buf : List String) (line : String) (rest : List String),
      line ≠ EOL → splitFirst ':' line = none →
      rmGo (fuel + 1) b outer true hdrs buf (line :: rest)
        = ⟨[], some PError.malformedHeader, rest⟩ := by
    intro fuel b outer hdrs buf line rest hne hsep
    simp [rmGo, hne, hsep]
  refine ⟨hstep, ?_⟩
  intro bad rest hne hsep
  simp only [read_multipart]
  conv_lhs => rw [rmGo]
  simp only [EOL, nextBoundaryOf, lastBoundaryOf]
  norm_num
  exact hstep 18 (some "b") false [] [] bad rest hne hsep

theorem c9_malformed_header_aborts_witness :
    rmGo 1 (some "b") false true [] [] ["garbage" ++ EOL]
      = ⟨[], some PError.malformedHeader, []⟩ :=
  c9_malformed_header_aborts.1 0 (some "b") false [] [] ("garbage" ++ EOL) [] (by decide) rfl

/-- C10 counterexample: a non-empty caller headers dict that already contains
exactly the synthesized bindings is left with an unchanged value by `add`, so
it is not the case that every non-empty headers argument is changed. -/
theorem c10_unchanged_counterexample :
    addHeadersEffect [("Content-Type", "text/plain"), ("Content-Length", "0")] "text/plain" ""
        = [("Content-Type", "text/plain"), ("Content-Length", "0")] ∧
      ([("Content-Type", "text/plain"), ("Content-Length", "0")] : List (String × String)) ≠ [] :=
  ⟨rfl, by decide⟩

/-- C10 (amended): the constructor and `add` update the caller-supplied headers
dict in place with the synthesized bindings; the resulting mapping differs from
the original whenever the original did not already bind `Content-Type` (and,
for `add`, `Content-Length`) to exactly the synthesized values — in particular
for any mapping not containing those keys. -/
theorem c10_headers_mutated (hs : List (String × String)) (st b mt c : String)
    (h1 : hlookup hs "Content-Type" ≠ some (ctValue st b))
    (h2 : hlookup hs "Content-Type" ≠ some mt ∨
      hlookup hs "Content-Length" ≠ some (natToStr c.data.length)) :
    initHeadersEffect hs st b ≠ hs ∧ addHeadersEffect hs mt c ≠ hs := by
  constructor
  · intro he
    apply h1
    calc hlookup hs "Content-Type" = hlookup (initHeadersEffect hs st b) "Content-Type" := by
          rw [he]
      _ = some (ctValue st b) := hlookup_dinsert_self _ _ _
  · intro he
    have hCT : hlookup hs "Content-Type" = some mt := by
      calc hlookup hs "Content-Type" = hlookup (addHeadersEffect hs mt c) "Content-Type" := by
            rw [he]
        _ = hlookup (dinsert hs "Content-Type" mt) "Content-Type" :=
          hlookup_dinsert_ne _ _ _ _ (by decide)
        _ = some mt := hlookup_dinsert_self _ _ _
    have hCL : hlookup hs "Content-Length" = some (natToStr c.data.length) := by
      calc hlookup hs "Content-Length" = hlookup (addHeadersEffect hs mt c) "Content-Length" := by
            rw [he]
        _ = some (natToStr c.data.length) := hlookup_dinsert_self _ _ _
    rcases h2 with h | h
    · exact h hCT
    · exact h hCL

theorem c10_headers_mutated_witness :
    initHeadersEffect [("X", "1")] "mixed" "b" ≠ [("X", "1")] ∧
      addHeadersEffect [("X", "1")] "text/plain" "" ≠ [("X", "1")] :=
  c10_headers_mutated [("X", "1")] "mixed" "b" "text/plain" "" (by decide) (Or.inl (by decide))

end Multipart
